import Mathlib

/-!
Verification of the gamma-e2e-testing-tool flow runner.

Strings are embedded as `List Char` (written `Str`); Python's
single-character `str.replace`, `str.lower`, `str.upper`, `str.strip`,
`in` (substring test) and `startswith` become `List.map`, `dropWhile`
from both ends, `List.isInfixOf` and `List.isPrefixOf`.  Environment
lookup (`os.getenv`) is an explicit function `Str → Option Str`; a JSON
dictionary key that may be absent is an `Option` field.
-/

/-- Lines of process output, names, env values: Python strings as char lists. -/
abbrev Str := List Char

/-- ASCII whitespace recognised by Python's `str.strip()`. -/
def isPySpace (c : Char) : Bool :=
  c = ' ' || c = '\t' || c = '\n' || c = '\r' || c = '\x0b' || c = '\x0c'

/-- Python `str.strip()`: drop whitespace from both ends. -/
def pyStrip (s : Str) : Str :=
  ((s.dropWhile isPySpace).reverse.dropWhile isPySpace).reverse

/-- Python `str.lower()` (ASCII range, which covers every keyword the
classifier tests for). -/
def pyLower (s : Str) : Str := s.map Char.toLower

/-- Python's substring test `needle in hay`: some tail of `hay` starts
with `needle`. -/
def pyIn (needle : Str) : Str → Bool
  | [] => needle.isEmpty
  | c :: t => needle.isPrefixOf (c :: t) || pyIn needle t

/-- Kinds a consumed log line is tagged with by `gui.py`'s
`consume_test_logs` (the tag passed to `add_log`). -/
inductive LineKind where
  | error
  | warning
  | info
deriving DecidableEq, Repr

/-- `gui.py` `consume_test_logs`, the `is_explicit_fail` expression: the
stricter failure-detection rules applied to the stripped line
(`normalized`) and its lowercase form (`lower`).  Python's `and` binds
tighter than `or`, giving the grouping below. -/
def is_explicit_fail (normalized : Str) : Bool :=
  let lower := pyLower normalized
  "✗".data.isPrefixOf normalized
    || "❌".data.isPrefixOf normalized
    || pyIn "] ERROR".data normalized
    || "ERROR".data.isPrefixOf normalized
    || pyIn " critical step failed".data lower
    || (pyIn "selector".data lower && pyIn "not found".data lower)
    || (pyIn "timeout".data lower
        && (pyIn "failed".data lower || pyIn "selector".data lower))

/-- `gui.py` `consume_test_logs`, per-line tagging: `line_text` is the
stripped raw line, `normalized` is `line_text.strip()`; error wins over
warning (`if`/`elif`), everything else is info. -/
def classifyLine (line : Str) : LineKind :=
  if is_explicit_fail (pyStrip (pyStrip line)) then .error
  else if pyIn "warning".data (pyLower (pyStrip line)) then .warning
  else .info

/-- The error rule exactly as the spec words it (C1): the line begins with
a failure glyph/keyword, or contains an explicit `ERROR` token, or
mentions "critical step failed", or mentions both "selector" and
"not found", or mentions "timeout" together with "failed" or
"selector" — "mentions" being case-insensitive containment in the
stripped line. -/
def specErrorRule (line : Str) : Bool :=
  let n := pyStrip (pyStrip line)
  let lower := pyLower n
  ("✗".data.isPrefixOf n || "❌".data.isPrefixOf n || "ERROR".data.isPrefixOf n
      || pyIn "] ERROR".data n)
    || pyIn "critical step failed".data lower
    || (pyIn "selector".data lower && pyIn "not found".data lower)
    || (pyIn "timeout".data lower
        && (pyIn "failed".data lower || pyIn "selector".data lower))

/-- The spec's rule amended to match the code: the phrase
"critical step failed" counts only when preceded by a space. -/
def amendedErrorRule (line : Str) : Bool :=
  let n := pyStrip (pyStrip line)
  let lower := pyLower n
  ("✗".data.isPrefixOf n || "❌".data.isPrefixOf n || "ERROR".data.isPrefixOf n
      || pyIn "] ERROR".data n)
    || pyIn " critical step failed".data lower
    || (pyIn "selector".data lower && pyIn "not found".data lower)
    || (pyIn "timeout".data lower
        && (pyIn "failed".data lower || pyIn "selector".data lower))

/-- The code's failure test and the amended spec rule agree: they differ
only in the order of the `ERROR`-prefix and `] ERROR`-containment
disjuncts. -/
theorem is_explicit_fail_eq_amended (l : Str) :
    is_explicit_fail (pyStrip (pyStrip l)) = amendedErrorRule l := by
  unfold is_explicit_fail amendedErrorRule
  rw [Bool.or_right_comm ("✗".data.isPrefixOf (pyStrip (pyStrip l))
      || "❌".data.isPrefixOf (pyStrip (pyStrip l)))]

/-- A line is tagged `error` exactly when `is_explicit_fail` accepts its
doubly-stripped form. -/
theorem classifyLine_eq_error_iff (l : Str) :
    classifyLine l = .error ↔ is_explicit_fail (pyStrip (pyStrip l)) = true := by
  unfold classifyLine
  split
  · simp [*]
  · split <;> simp_all

/-- Final status of a run, `ok` or `failed`, as written into the
`status` field of `summary.json`. -/
inductive RunStatus where
  | ok
  | failed
deriving DecidableEq, Repr

/-- `gui.py` `consume_test_logs`, loop plus epilogue: `test_failed`
becomes true as soon as a line passes `is_explicit_fail` (each line is
stripped once on read and once more as `normalized`). -/
def consume_test_failed (lines : List Str) : Bool :=
  lines.any fun l => is_explicit_fail (pyStrip (pyStrip l))

/-- `gui.py` `consume_test_logs`, final-status decision handed to
`create_test_summary`: failed when `test_failed or returncode != 0`. -/
def final_status (lines : List Str) (returncode : Int) : RunStatus :=
  if consume_test_failed lines || returncode != 0 then .failed else .ok

/-- `gui.py` `consume_test_logs`: `error_message` ends up holding the
last error-classified line (stripped), if any. -/
def consume_error_message (lines : List Str) : Option Str :=
  (lines.filter fun l => is_explicit_fail (pyStrip (pyStrip l))).getLast?.map pyStrip

/-- The part of the `summary` dictionary built by
`gui.py` `create_test_summary` that the classifier claims concern. -/
structure RunSummary where
  status : RunStatus
  error : Option Str
deriving DecidableEq, Repr

/-- `consume_test_logs` composed with `create_test_summary`: the summary
written at the end of a run, as a function of the consumed output lines
and the process return code. -/
def run_summary (lines : List Str) (returncode : Int) : RunSummary :=
  { status := final_status lines returncode
    error := consume_error_message lines }

/-- C1, counterexample: the line "Critical step failed" mentions
"critical step failed", so the spec's rule marks it an error, yet the
classifier tags it `info`: the code matches the phrase only when a space
precedes it, which fails at the start of the stripped line. -/
theorem C1_spec_rule_counterexample :
    specErrorRule "Critical step failed".data = true ∧
      classifyLine "Critical step failed".data ≠ LineKind.error := by
  decide

/-- C1, amended: a line is classified `error` exactly when it begins with
a failure glyph/keyword (✗, ❌ or `ERROR`), or contains the explicit
token `] ERROR`, or mentions "critical step failed" preceded by a space,
or mentions both "selector" and "not found", or mentions "timeout"
together with "failed" or "selector"; these rules take priority over the
warning rule. -/
theorem C1_classifier_error_rule (l : Str) :
    classifyLine l = .error ↔ amendedErrorRule l = true := by
  rw [classifyLine_eq_error_iff, is_explicit_fail_eq_amended]

/-- Bool-level form of C2's condition. -/
theorem consume_test_failed_or_rc (lines : List Str) (rc : Int) :
    (consume_test_failed lines || rc != 0) = true ↔
      rc ≠ 0 ∨ ∃ l ∈ lines, classifyLine l = .error := by
  simp only [consume_test_failed, Bool.or_eq_true, List.any_eq_true, bne_iff_ne, ne_eq]
  constructor
  · rintro (⟨l, hl, he⟩ | h)
    · exact Or.inr ⟨l, hl, (classifyLine_eq_error_iff l).mpr he⟩
    · exact Or.inl h
  · rintro (h | ⟨l, hl, he⟩)
    · exact Or.inr h
    · exact Or.inl ⟨l, hl, (classifyLine_eq_error_iff l).mp he⟩

/-- C2: the status recorded in the run summary is `failed` exactly when
the process exit code is non-zero or at least one consumed output line is
classified `error` — either signal alone suffices — and `ok` exactly
otherwise. -/
theorem C2_final_status (lines : List Str) (rc : Int) :
    ((run_summary lines rc).status = .failed ↔
        rc ≠ 0 ∨ ∃ l ∈ lines, classifyLine l = .error) ∧
      ((run_summary lines rc).status = .ok ↔
        rc = 0 ∧ ∀ l ∈ lines, classifyLine l ≠ .error) := by
  have status_eq : (run_summary lines rc).status =
      if consume_test_failed lines || rc != 0 then RunStatus.failed else .ok := rfl
  by_cases hc : (consume_test_failed lines || rc != 0) = true
  · rw [status_eq, if_pos hc]
    have hr := (consume_test_failed_or_rc lines rc).mp hc
    constructor
    · simp [hr]
    · constructor
      · intro h; cases h
      · intro ⟨h0, hall⟩
        rcases hr with h | ⟨l, hl, he⟩
        · exact absurd h0 h
        · exact absurd he (hall l hl)
  · rw [status_eq, if_neg hc]
    have hr : ¬ (rc ≠ 0 ∨ ∃ l ∈ lines, classifyLine l = .error) :=
      fun h => hc ((consume_test_failed_or_rc lines rc).mpr h)
    push_neg at hr
    refine ⟨⟨fun h => RunStatus.noConfusion h, fun h => ?_⟩,
      iff_of_true rfl ⟨hr.1, hr.2⟩⟩
    rcases h with h | ⟨l, hl, he⟩
    · exact absurd hr.1 h
    · exact absurd he (hr.2 l hl)

/-- C3: the informational line "Network errors saved to disk" is
classified `info` even though it contains the substring "error" — the
substring alone never triggers the error classification. -/
theorem C3_network_errors_info :
    classifyLine "Network errors saved to disk".data = .info ∧
      pyIn "error".data (pyLower "Network errors saved to disk".data) = true := by
  decide

/-- A JSON scalar as found in a step's `value` slot: a string, or some
non-string value (the runner only substitutes into strings). -/
inductive SVal where
  | str (s : Str)
  | nonstr
deriving DecidableEq, Repr

/-- A step dictionary of a JSON flow.  The named fields are the keys the
runner and the step schema touch; `rest` stands for every remaining
key/value pair, which `dict(step)` copies untouched. -/
structure Step where
  action : Option Str := none
  target : Option Str := none
  value : Option SVal := none
  timeout : Option Int := none
  critical : Option Bool := none
  rest : List (Str × SVal) := []
deriving DecidableEq, Repr

/-- A project-configuration block as written in the document: every key
may be absent. -/
structure ProjectConfigDoc where
  name : Option Str := none
  email : Option Str := none
  password : Option Str := none
  user_agent : Option Str := none
deriving DecidableEq, Repr

/-- The `TEST_STEPS` value: a list of steps, or some non-list JSON value. -/
inductive StepsVal where
  | list (steps : List Step)
  | nonlist
deriving DecidableEq, Repr

/-- The parsed JSON flow document as `json_runner.main` reads it: the
primary and two legacy project-block keys, and `TEST_STEPS`. -/
structure RawDoc where
  PROJECT_CONFIG : Option ProjectConfigDoc := none
  TARGET_CONFIG : Option ProjectConfigDoc := none
  BRAND_CONFIG : Option ProjectConfigDoc := none
  TEST_STEPS : Option StepsVal := none
deriving DecidableEq, Repr

/-- The fully-populated project configuration handed to the engine. -/
structure ProjectConfig where
  name : Str
  email : Str
  password : Str
  user_agent : Str
deriving DecidableEq, Repr

/-- `json_runner.normalize_prefix`:
`(name or "").upper().replace("-", "_").replace(" ", "_")`. -/
def normalize_prefix (name : Str) : Str :=
  ((name.map Char.toUpper).map fun c => if c = '-' then '_' else c).map
    fun c => if c = ' ' then '_' else c

/-- `json_runner.main`, the `default_ua` literal. -/
def default_ua : Str :=
  "Mozilla/5.0 (Macintosh; Intel Mac OS X 10_15_7) AppleWebKit/537.36 (KHTML, like Gecko) Chrome/126.0.0.0 Safari/537.36".data

/-- `json_runner.main` line 39: the first present of `PROJECT_CONFIG`,
`TARGET_CONFIG`, `BRAND_CONFIG`, else an empty dictionary. -/
def project_block (data : RawDoc) : ProjectConfigDoc :=
  data.PROJECT_CONFIG.getD (data.TARGET_CONFIG.getD (data.BRAND_CONFIG.getD {}))

/-- `json_runner.main` lines 40-41: default the `name` key to the
caller-supplied project name only when the key is absent. -/
def with_name (pc : ProjectConfigDoc) (project_name : Str) : ProjectConfigDoc :=
  match pc.name with
  | some _ => pc
  | none => { pc with name := some project_name }

/-- `json_runner.main` lines 44-48: generic env injection.  The prefix
uses `project_name or project_config.get("name", "")` (Python truthiness:
an empty name falls back to the block's name); `setdefault` consults the
environment only for keys absent from the block, and `os.getenv(key, "")`
yields the empty string for unset email/password and `default_ua` for an
unset user agent. -/
def inject_env (pc : ProjectConfigDoc) (project_name : Str)
    (env : Str → Option Str) : ProjectConfig :=
  let pre := normalize_prefix
    (if project_name.isEmpty then pc.name.getD [] else project_name)
  { name := pc.name.getD []
    email := pc.email.getD ((env (pre ++ "_EMAIL".data)).getD [])
    password := pc.password.getD ((env (pre ++ "_PASSWORD".data)).getD [])
    user_agent := pc.user_agent.getD ((env (pre ++ "_USER_AGENT".data)).getD default_ua) }

/-- `json_runner.main` lines 39-48, composed: the project configuration
as it stands after name defaulting and env injection. -/
def resolved_config (data : RawDoc) (project_name : Str)
    (env : Str → Option Str) : ProjectConfig :=
  inject_env (with_name (project_block data) project_name) project_name env

/-- `json_runner.main` lines 57-66, one iteration: substitute the literal
tokens `$EMAIL` / `$PASSWORD` in the value of a `fill` step; every other
step is copied unchanged. -/
def resolve_step (cfg : ProjectConfig) (st : Step) : Step :=
  if st.action = some "fill".data then
    match st.value with
    | some (.str v) =>
        if v = "$EMAIL".data then { st with value := some (.str cfg.email) }
        else if v = "$PASSWORD".data then { st with value := some (.str cfg.password) }
        else st
    | _ => st
  else st

/-- `json_runner.main` from document parse to engine hand-off: on a
missing, non-list or empty `TEST_STEPS` it prints
"No TEST_STEPS found in JSON flow" and exits with code 2 (the `.error`
case); otherwise it hands the engine the resolved configuration and the
fully resolved step list (the `.ok` case).  Run directories and
artifacts are created only by the engine, i.e. only in the `.ok` case. -/
def json_runner_main (data : RawDoc) (project_name : Str)
    (env : Str → Option Str) : Except (Nat × Str) (ProjectConfig × List Step) :=
  let cfg := resolved_config data project_name env
  match data.TEST_STEPS with
  | some (.list steps) =>
      if steps.isEmpty then .error (2, "No TEST_STEPS found in JSON flow".data)
      else .ok (cfg, steps.map (resolve_step cfg))
  | some .nonlist => .error (2, "No TEST_STEPS found in JSON flow".data)
  | none => .error (2, "No TEST_STEPS found in JSON flow".data)

/-- `with_name` only touches the `name` key. -/
theorem with_name_email (pc : ProjectConfigDoc) (n : Str) :
    (with_name pc n).email = pc.email := by
  unfold with_name; split <;> rfl

/-- `with_name` only touches the `name` key. -/
theorem with_name_password (pc : ProjectConfigDoc) (n : Str) :
    (with_name pc n).password = pc.password := by
  unfold with_name; split <;> rfl

/-- `with_name` only touches the `name` key. -/
theorem with_name_user_agent (pc : ProjectConfigDoc) (n : Str) :
    (with_name pc n).user_agent = pc.user_agent := by
  unfold with_name; split <;> rfl

/-- After `with_name`, the `name` key holds the block's name when present
and the caller-supplied name otherwise. -/
theorem with_name_name (pc : ProjectConfigDoc) (n : Str) :
    (with_name pc n).name = some (pc.name.getD n) := by
  rcases pc with ⟨pn, pe, pp, pu⟩
  cases pn <;> rfl

/-- The prefix normalization is one pass over the uppercased name that
sends '-' and ' ' to '_' and keeps every other character. -/
theorem normalize_prefix_spec (name : Str) :
    normalize_prefix name =
      (name.map Char.toUpper).map fun c => if c = '-' ∨ c = ' ' then '_' else c := by
  unfold normalize_prefix
  rw [List.map_map]
  refine List.map_congr_left fun c _ => ?_
  by_cases h1 : c = '-'
  · subst h1; decide
  · by_cases h2 : c = ' '
    · subst h2; decide
    · simp [Function.comp, h1, h2]

/-- C4: the credential resolver builds the environment prefix by
uppercasing the project name and turning '-' and ' ' into '_', looks up
`PREFIX_EMAIL` / `PREFIX_PASSWORD` / `PREFIX_USER_AGENT` for keys the
document leaves absent, defaults the user agent to the fixed desktop
string, never fails on missing credentials — unset email/password become
empty strings — and a flow with a non-empty step list still loads. -/
theorem C4_credential_resolution (pname : Str) (env : Str → Option Str)
    (data : RawDoc) (hp : pname ≠ [])
    (he : (project_block data).email = none)
    (hpw : (project_block data).password = none)
    (hua : (project_block data).user_agent = none) :
    normalize_prefix pname =
        ((pname.map Char.toUpper).map fun c => if c = '-' ∨ c = ' ' then '_' else c) ∧
      (resolved_config data pname env).email =
        (env ( normalize_prefix pname ++ "_EMAIL".data)).getD [] ∧
      (resolved_config data pname env).password =
        (env ( normalize_prefix pname ++ "_PASSWORD".data)).getD [] ∧
      (resolved_config data pname env).user_agent =
        (env ( normalize_prefix pname ++ "_USER_AGENT".data)).getD default_ua ∧
      (env ( normalize_prefix pname ++ "_EMAIL".data) = none →
        (resolved_config data pname env).email = []) ∧
      (env ( normalize_prefix pname ++ "_PASSWORD".data) = none →
        (resolved_config data pname env).password = []) ∧
      ∀ steps, data.TEST_STEPS = some (.list steps) → steps ≠ [] →
        json_runner_main data pname env =
          .ok (resolved_config data pname env,
            steps.map (resolve_step (resolved_config data pname env))) := by
  have hpe : pname.isEmpty = false := by
    cases pname with
    | nil => exact absurd rfl hp
    | cons c t => rfl
  have hemail : (resolved_config data pname env).email =
      (env ( normalize_prefix pname ++ "_EMAIL".data)).getD [] := by
    simp [resolved_config, inject_env, with_name_email, he, hpe]
  have hpass : (resolved_config data pname env).password =
      (env ( normalize_prefix pname ++ "_PASSWORD".data)).getD [] := by
    simp [resolved_config, inject_env, with_name_password, hpw, hpe]
  have huser : (resolved_config data pname env).user_agent =
      (env ( normalize_prefix pname ++ "_USER_AGENT".data)).getD default_ua := by
    simp [resolved_config, inject_env, with_name_user_agent, hua, hpe]
  refine ⟨normalize_prefix_spec pname, hemail, hpass, huser, ?_, ?_, ?_⟩
  · intro h; rw [hemail, h]; rfl
  · intro h; rw [hpass, h]; rfl
  · intro steps hsteps hne
    have : steps.isEmpty = false := by
      cases steps with
      | nil => exact absurd rfl hne
      | cons s t => rfl
    simp [json_runner_main, hsteps, this]

/-- Environment used in concrete resolver witnesses. -/
def envW : Str → Option Str := fun k =>
  if k = "ACME_WEB_APP_EMAIL".data then some "w@x.io".data else none

/-- A flow document with no project block and one navigate step. -/
def docW : RawDoc :=
  { TEST_STEPS := some (.list
      [{ action := some "navigate".data, target := some "https://x".data }]) }

/-- C4 witness: for project "acme-web app" with only `ACME_WEB_APP_EMAIL`
set, the resolved email is the env value and the user agent falls back to
the fixed desktop string. -/
theorem C4_witness :
    (resolved_config docW "acme-web app".data envW).email = "w@x.io".data ∧
      (resolved_config docW "acme-web app".data envW).user_agent = default_ua ∧
      (resolved_config docW "acme-web app".data envW).password = [] := by
  have h := C4_credential_resolution "acme-web app".data envW docW
    (by decide) rfl rfl rfl
  refine ⟨?_, ?_, ?_⟩
  · rw [h.2.1]; decide
  · rw [h.2.2.2.1]; decide
  · rw [h.2.2.1]; decide

/-- C5: at load time, a `fill` step whose value is the literal token
`$EMAIL` (resp. `$PASSWORD`) has that value replaced by the resolved
project email (resp. password); every other step — non-fill action,
non-string value, or any other string — is passed through unchanged, so
those two literals are the only values with special meaning. -/
theorem C5_token_substitution (cfg : ProjectConfig) (st : Step) :
    (st.action = some "fill".data → st.value = some (.str "$EMAIL".data) →
        resolve_step cfg st = { st with value := some (.str cfg.email) }) ∧
      (st.action = some "fill".data → st.value = some (.str "$PASSWORD".data) →
        resolve_step cfg st = { st with value := some (.str cfg.password) }) ∧
      (st.action ≠ some "fill".data → resolve_step cfg st = st) ∧
      (∀ v, st.value = some (.str v) → v ≠ "$EMAIL".data → v ≠ "$PASSWORD".data →
        resolve_step cfg st = st) ∧
      ((∀ v, st.value ≠ some (.str v)) → resolve_step cfg st = st) := by
  refine ⟨?_, ?_, ?_, ?_, ?_⟩
  · intro ha hv
    simp [resolve_step, ha, hv]
  · intro ha hv
    simp [resolve_step, ha, hv]
  · intro ha
    simp [resolve_step, ha]
  · intro v hv h1 h2
    unfold resolve_step
    split
    · rw [hv]
      simp [h1, h2]
    · rfl
  · intro hv
    unfold resolve_step
    split
    · cases h : st.value with
      | none => simp [h]
      | some sv =>
          cases sv with
          | str v => exact absurd h (hv v)
          | nonstr => simp [h]
    · rfl

/-- Project block and environment of the scenario-B witness:
`ACME_EMAIL=test@x.com`. -/
def envB : Str → Option Str := fun k =>
  if k = "ACME_EMAIL".data then some "test@x.com".data else none

/-- Scenario-B flow document: `[navigate, fill(value="$EMAIL"), click]`
with no project block of its own. -/
def docB : RawDoc :=
  { TEST_STEPS := some (.list
      [{ action := some "navigate".data, target := some "https://x".data },
       { action := some "fill".data, target := some "#email".data,
         value := some (.str "$EMAIL".data) },
       { action := some "click".data, target := some "#submit".data }]) }

/-- C5 witness (scenario B): with `ACME_EMAIL=test@x.com`, the resolved
`fill` step's value is `test@x.com`, not the literal token. -/
theorem C5_witness :
    resolve_step (resolved_config docB "ACME".data envB)
        { action := some "fill".data, target := some "#email".data,
          value := some (.str "$EMAIL".data) } =
      { action := some "fill".data, target := some "#email".data,
        value := some (.str "test@x.com".data) } := by
  rw [(C5_token_substitution (resolved_config docB "ACME".data envB)
    { action := some "fill".data, target := some "#email".data,
      value := some (.str "$EMAIL".data) }).1 rfl rfl]
  decide

/-- C6: a flow document whose `TEST_STEPS` is missing, not a list, or an
empty list makes the runner print the descriptive message and exit with
code 2; the engine — and with it any run directory or artifact — is
reached only in the `.ok` case. -/
theorem C6_missing_steps_fatal (data : RawDoc) (pname : Str)
    (env : Str → Option Str)
    (h : data.TEST_STEPS = none ∨ data.TEST_STEPS = some .nonlist ∨
        data.TEST_STEPS = some (.list [])) :
    json_runner_main data pname env =
      .error (2, "No TEST_STEPS found in JSON flow".data) := by
  rcases h with h | h | h <;> simp [json_runner_main, h]

/-- C6 witness: the empty step list exits with code 2 and the message. -/
theorem C6_witness :
    json_runner_main { TEST_STEPS := some (.list []) } "ACME".data (fun _ => none) =
      .error (2, "No TEST_STEPS found in JSON flow".data) :=
  C6_missing_steps_fatal _ _ _ (Or.inr (Or.inr rfl))

/-- A document whose project block carries an explicitly empty name. -/
def doc9 : RawDoc :=
  { PROJECT_CONFIG := some { name := some [] }
    TEST_STEPS := some (.list [{ action := some "navigate".data }]) }

/-- C9, counterexample: a document whose project block supplies
`"name": ""` loads successfully with an empty config name even though the
caller-supplied identifier "ACME" is non-empty — the name invariant
fails because only an absent key falls back. -/
theorem C9_counterexample :
    (resolved_config doc9 "ACME".data (fun _ => none)).name = [] ∧
      ("ACME".data : Str) ≠ [] ∧
      (json_runner_main doc9 "ACME".data (fun _ => none)).toOption.isSome = true := by
  decide

/-- C9, amended: when the document's project block lacks a `name` key the
loaded configuration's name is the caller-supplied project identifier; a
name supplied by the document — even the empty string — is kept. -/
theorem C9_name_fallback (data : RawDoc) (pname : Str) (env : Str → Option Str) :
    ((project_block data).name = none →
        (resolved_config data pname env).name = pname) ∧
      ∀ n, (project_block data).name = some n →
        (resolved_config data pname env).name = n := by
  have hn := with_name_name (project_block data) pname
  constructor
  · intro h
    simp [resolved_config, inject_env, hn, h]
  · intro n h
    simp [resolved_config, inject_env, hn, h]

/-- C9 witness: a document without a project-block name gets the
caller-supplied identifier. -/
theorem C9_name_fallback_witness :
    (resolved_config { TEST_STEPS := some (.list []) } "ACME".data
      (fun _ => none)).name = "ACME".data :=
  (C9_name_fallback _ _ _).1 rfl

/-- C10: values the document's project block already supplies for
email, password or user agent survive resolution unchanged — the
environment acts only as a default for absent keys, never an override. -/
theorem C10_document_values_kept (data : RawDoc) (pname : Str)
    (env : Str → Option Str) :
    (∀ v, (project_block data).email = some v →
        (resolved_config data pname env).email = v) ∧
      (∀ v, (project_block data).password = some v →
        (resolved_config data pname env).password = v) ∧
      ∀ v, (project_block data).user_agent = some v →
        (resolved_config data pname env).user_agent = v := by
  refine ⟨fun v h => ?_, fun v h => ?_, fun v h => ?_⟩
  · simp [resolved_config, inject_env, with_name_email, h]
  · simp [resolved_config, inject_env, with_name_password, h]
  · simp [resolved_config, inject_env, with_name_user_agent, h]

/-- A document that supplies all three credential keys itself. -/
def doc10 : RawDoc :=
  { PROJECT_CONFIG := some
      { email := some "doc@e".data, password := some "pw".data,
        user_agent := some "UA1".data } }

/-- C10 witness: even with every environment variable set, the document's
own email, password and user agent win. -/
theorem C10_witness :
    (resolved_config doc10 "ACME".data (fun _ => some "env".data)).email =
        "doc@e".data ∧
      (resolved_config doc10 "ACME".data (fun _ => some "env".data)).password =
        "pw".data ∧
      (resolved_config doc10 "ACME".data (fun _ => some "env".data)).user_agent =
        "UA1".data :=
  ⟨(C10_document_values_kept doc10 "ACME".data (fun _ => some "env".data)).1 _ rfl,
    (C10_document_values_kept doc10 "ACME".data (fun _ => some "env".data)).2.1 _ rfl,
    (C10_document_values_kept doc10 "ACME".data (fun _ => some "env".data)).2.2 _ rfl⟩

/-- Modelled from the spec: per-step schema validation of §3.  The
validation lives in the flow engine (`tests/base_test_engine.py`), a file
of this repository that is not present here; `json_runner.py` only
forwards the step list.  A step is valid when its action is one of
`navigate`, `click`, `fill`, `wait`, its target is present, a `fill`
step carries a non-empty string value, and its timeout (default 40) is
positive. -/
def step_valid (st : Step) : Bool :=
  (match st.action with
   | some a => a = "navigate".data || a = "click".data || a = "fill".data
       || a = "wait".data
   | none => false)
    && st.target.isSome
    && (if st.action = some "fill".data then
          match st.value with
          | some (.str v) => !v.isEmpty
          | _ => false
        else true)
    && decide (0 < st.timeout.getD 40)

/-- Index of the first schema-invalid step, if any. -/
def first_invalid_idx : List Step → Option Nat
  | [] => none
  | st :: rest =>
      if step_valid st then (first_invalid_idx rest).map (· + 1) else some 0

/-- Load-time failures of the flow-document model (spec §4.1, §7). -/
inductive LoadError where
  | malformedFlow
  | invalidStep (index : Nat)
deriving DecidableEq, Repr

/-- Modelled from the spec: `load(path) -> FlowDocument` (spec §4.1),
with the step-schema check of the engine, absent from this tree, added
after `json_runner`'s own non-empty-list check: a document lacking a
non-empty step list is malformed, and the first step violating the
schema fails the load with its index, before any step executes. -/
def load_flow (data : RawDoc) : Except LoadError (List Step) :=
  match data.TEST_STEPS with
  | some (.list steps) =>
      if steps.isEmpty then .error .malformedFlow
      else
        match first_invalid_idx steps with
        | some i => .error (.invalidStep i)
        | none => .ok steps
  | _ => .error .malformedFlow

/-- `first_invalid_idx` finds an invalid step at its index, every earlier
step being valid. -/
theorem first_invalid_idx_spec (steps : List Step)
    (hbad : ∃ st ∈ steps, step_valid st = false) :
    ∃ i, first_invalid_idx steps = some i ∧
      ∃ h : i < steps.length, step_valid (steps.get ⟨i, h⟩) = false ∧
        ∀ j (hj : j < steps.length), j < i → step_valid (steps.get ⟨j, hj⟩) = true := by
  induction steps with
  | nil => simp at hbad
  | cons st rest ih =>
      by_cases hv : step_valid st
      · have hrest : ∃ s ∈ rest, step_valid s = false := by
          rcases hbad with ⟨s, hs, hsf⟩
          rcases List.mem_cons.mp hs with rfl | hmem
          · exact absurd hv (by simp [hsf])
          · exact ⟨s, hmem, hsf⟩
        rcases ih hrest with ⟨i, hfi, hlt, hif, hmin⟩
        refine ⟨i + 1, ?_, Nat.succ_lt_succ hlt, hif, ?_⟩
        · simp [first_invalid_idx, hv, hfi]
        · intro j hj hji
          cases j with
          | zero => exact hv
          | succ j' =>
              exact hmin j' (Nat.lt_of_succ_lt_succ hj) (Nat.lt_of_succ_lt_succ hji)
      · refine ⟨0, ?_, Nat.succ_pos _, ?_, ?_⟩
        · simp [first_invalid_idx, hv]
        · simpa using Bool.eq_false_iff.mpr hv
        · intro j hj hji
          exact absurd hji (Nat.not_lt_zero j)

/-- C7: a flow document containing a step that violates the step schema
fails to load with `invalidStep` naming the index of the first offending
step, before any step executes (`load_flow` returns no step list at
all). -/
theorem C7_invalid_step (steps : List Step)
    (hbad : ∃ st ∈ steps, step_valid st = false) :
    ∃ i, load_flow { TEST_STEPS := some (.list steps) } =
        .error (.invalidStep i) ∧
      ∃ h : i < steps.length, step_valid (steps.get ⟨i, h⟩) = false ∧
        ∀ j (hj : j < steps.length), j < i → step_valid (steps.get ⟨j, hj⟩) = true := by
  have hne : steps.isEmpty = false := by
    rcases hbad with ⟨s, hs, _⟩
    cases steps with
    | nil => simp at hs
    | cons a t => rfl
  rcases first_invalid_idx_spec steps hbad with ⟨i, hfi, hrest⟩
  exact ⟨i, by simp [load_flow, hne, hfi], hrest⟩

/-- A schema-valid navigate step. -/
def stepNavW : Step :=
  { action := some "navigate".data, target := some "https://x".data }

/-- A step violating the schema: unknown action and no target. -/
def stepBadW : Step := { action := some "frobnicate".data }

/-- C7 witness: in `[navigate, frobnicate]` the load fails naming an
offending index (the invalid second step). -/
theorem C7_witness :
    ∃ i, load_flow { TEST_STEPS := some (.list [stepNavW, stepBadW]) } =
        .error (.invalidStep i) ∧
      ∃ h : i < [stepNavW, stepBadW].length,
        step_valid ([stepNavW, stepBadW].get ⟨i, h⟩) = false ∧
        ∀ j (hj : j < [stepNavW, stepBadW].length), j < i →
          step_valid ([stepNavW, stepBadW].get ⟨j, hj⟩) = true :=
  C7_invalid_step [stepNavW, stepBadW] ⟨stepBadW, by decide, by decide⟩

/-- One entry of the `steps` array of an engine-written `summary.json`,
as `calculate_test_duration` reads it: optional `start` and `end` epoch
values (embedded as integers). -/
structure SummaryStep where
  start : Option Int := none
  «end» : Option Int := none
deriving DecidableEq, Repr

/-- Python `min` over a list of numbers (only applied to non-empty
lists; the `[]` value is arbitrary). -/
def pymin : List Int → Int
  | [] => 0
  | x :: xs => xs.foldl min x

/-- Python `max` over a list of numbers (only applied to non-empty
lists; the `[]` value is arbitrary). -/
def pymax : List Int → Int
  | [] => 0
  | x :: xs => xs.foldl max x

/-- `gui.py` `calculate_test_duration`, the `summary.json` branch: with a
non-empty `steps` array, collect the `start` values of steps carrying a
`start` key and the `end` values of steps carrying an `end` key; when
both collections are non-empty and both `min(start_times)` and
`max(end_times)` are truthy (non-zero), return
`max(last_end - first_start, 1)`.  `none` stands for every fall-through
to the log-timestamp fallback. -/
def calculate_test_duration_steps (steps : List SummaryStep) : Option Int :=
  if steps.isEmpty then none
  else
    let start_times := (steps.filter fun s => s.start.isSome).map fun s => s.start.getD 0
    let end_times := (steps.filter fun s => s.«end».isSome).map fun s => s.«end».getD 0
    if start_times.isEmpty || end_times.isEmpty then none
    else
      let first_start := pymin start_times
      let last_end := pymax end_times
      if first_start ≠ 0 ∧ last_end ≠ 0 then some (max (last_end - first_start) 1)
      else none

/-- C8, counterexample: a run with a single step spanning epoch 10 to
epoch 10 records duration 1, while `max(endEpoch) - min(startEpoch)` is
0 — the code clamps the difference below at one second. -/
theorem C8_counterexample :
    calculate_test_duration_steps [{ start := some 10, «end» := some 10 }] =
        some 1 ∧
      pymax [(10 : Int)] - pymin [(10 : Int)] = 0 ∧ (1 : Int) ≠ 0 := by
  decide

/-- C8, amended: for a run whose recorded steps all carry start and end
epochs, with the minimal start and maximal end epoch non-zero, the
duration is `max(max(endEpoch) - min(startEpoch), 1)` — the epoch
difference clamped below at one second, never the sum of per-step
durations. -/
theorem C8_duration (steps : List SummaryStep)
    (hne : steps ≠ [])
    (hall : ∀ s ∈ steps, s.start.isSome ∧ s.«end».isSome)
    (hs : pymin (steps.map fun s => s.start.getD 0) ≠ 0)
    (he : pymax (steps.map fun s => s.«end».getD 0) ≠ 0) :
    calculate_test_duration_steps steps =
      some (max (pymax (steps.map fun s => s.«end».getD 0) -
        pymin (steps.map fun s => s.start.getD 0)) 1) := by
  have hf1 : steps.filter (fun s => s.start.isSome) = steps :=
    List.filter_eq_self.mpr fun s hmem => (hall s hmem).1
  have hf2 : steps.filter (fun s => s.«end».isSome) = steps :=
    List.filter_eq_self.mpr fun s hmem => (hall s hmem).2
  have hE : steps.isEmpty = false := by
    cases steps with
    | nil => exact absurd rfl hne
    | cons a t => rfl
  have hmapE : ∀ f : SummaryStep → Int, (steps.map f).isEmpty = false := by
    intro f
    cases steps with
    | nil => exact absurd rfl hne
    | cons a t => rfl
  unfold calculate_test_duration_steps
  rw [if_neg (by simp [hE]), hf1, hf2]
  rw [if_neg (by simp [hmapE])]
  rw [if_pos ⟨hs, he⟩]

/-- Two fully-timed summary steps, spanning epoch 100 to epoch 160. -/
def stepsW8 : List SummaryStep :=
  [{ start := some 100, «end» := some 130 },
   { start := some 110, «end» := some 160 }]

/-- C8 witness: the two fully-timed steps of `stepsW8` give duration
`max(160 - 100, 1)` = 60. -/
theorem C8_witness :
    calculate_test_duration_steps stepsW8 =
      some (max (pymax (stepsW8.map fun s => s.«end».getD 0) -
        pymin (stepsW8.map fun s => s.start.getD 0)) 1) :=
  C8_duration stepsW8 (by decide) (by decide) (by decide) (by decide)
